import Mathlib

/-!
Verification of `extradoc.py`, a documentation-extraction utility.

The Python program is embedded shallowly:

* `extract_strings` models `Main.extract_strings`: a fold over the token
  stream produced by `tokenize.generate_tokens`, writing qualifying
  triple-quoted string literals to the org-file sink and the PO catalog.
* `pyMain` models `Main.main`: option validation, file events
  (open/save/remove), the extraction pass over all inputs, and the final
  cleanup of the intermediate `.org` file.
* `launch_emacs` models `Main.launch_emacs`: per-line UTF-8 decoding with
  Latin-1 fallback, and the non-verbose noise filter (the cache-loading
  regular expression and the fixed prefix set).

Python strings are modelled as Lean `String` (token text as produced by
the tokenizer); byte strings (the subprocess output) as `List Nat`.
-/

/-- Numeric code of `tokenize.STRING` (token.STRING = 3 in CPython). -/
def tokSTRING : Nat := 3

/-- A token as produced by `tokenize.generate_tokens`: the slots of the
5-tuple that `extract_strings` consumes (code, text, start line, start
column). -/
structure Token where
  code : Nat
  text : String
  line : Nat
  col : Nat
  deriving Repr, DecidableEq

/-- The literal string `'"""'` tested by `text.startswith('"""')`. -/
def tripleQuote : String := "\"\"\""

/-- `isPrefixChars pat s` decides whether `pat` is a prefix of `s`
(character lists). -/
def isPrefixChars : List Char → List Char → Bool
  | [], _ => true
  | _ :: _, [] => false
  | a :: as, b :: bs => a == b && isPrefixChars as bs

/-- Python `s.startswith(pat)` on the character sequences of two strings. -/
def pyStartsWith (pat s : String) : Bool := isPrefixChars pat.data s.data

/-- Python `text.replace('\\\n', '')`: delete every occurrence of a
backslash immediately followed by a newline, scanning left to right over
non-overlapping occurrences of the original string. -/
def remCont : List Char → List Char
  | [] => []
  | '\\' :: '\n' :: rest => remCont rest
  | c :: rest => c :: remCont rest

/-- Python `text[3:-3]` on the character sequence: characters from index 3
up to (length − 3), empty when the range is degenerate. -/
def strip3 (l : List Char) : List Char := (l.drop 3).take (l.length - 6)

/-- The documentation text extracted from a qualifying literal:
`text[3:-3].replace('\\\n', '')`. -/
def docText (t : String) : String := String.mk (remCont (strip3 t.data))

/-- A `polib.POEntry` as built by `extract_strings`: msgid and its
occurrence list of (source name, line number rendered in decimal). -/
structure POEntry where
  msgid : String
  occurrences : List (String × String)
  deriving Repr, DecidableEq

/-- The mutable sink state of `Main` during extraction: the content
written so far to `self.org_file` (`none` when no org file is open), and
the entries appended so far to `self.po` (`none` when `-t` is absent). -/
structure SinkState where
  orgContent : Option String
  po : Option (List POEntry)
  deriving Repr, DecidableEq

/-- One iteration of the loop body of `Main.extract_strings` on a single
token: on a STRING token whose text starts with `"""`, strip the quotes,
delete line continuations, write the text to the org file when open, and
append a PO entry when `-t` was given. -/
def processToken (name : String) (st : SinkState) (tk : Token) : SinkState :=
  if tk.code = tokSTRING then
    if pyStartsWith tripleQuote tk.text then
      let text := docText tk.text
      { orgContent := st.orgContent.map (fun c => c ++ text),
        po := st.po.map (fun es =>
          es ++ [{ msgid := text, occurrences := [(name, toString tk.line)] }]) }
    else st
  else st

/-- `Main.extract_strings(file, name)`: fold `processToken` over the token
stream of one source file. -/
def extract_strings (st : SinkState) (toks : List Token) (name : String) : SinkState :=
  toks.foldl (processToken name) st

/-- The qualifying tokens of a stream: STRING tokens whose literal text
begins with three double-quote characters. -/
def docTokens (toks : List Token) : List Token :=
  toks.filter (fun tk => tk.code == tokSTRING && pyStartsWith tripleQuote tk.text)

/-- The extracted documentation texts of a stream, in token order. -/
def docTexts (toks : List Token) : List String :=
  (docTokens toks).map (fun tk => docText tk.text)

/-- The PO entries contributed by one source file, in token order. -/
def docEntries (name : String) (toks : List Token) : List POEntry :=
  (docTokens toks).map (fun tk =>
    { msgid := docText tk.text, occurrences := [(name, toString tk.line)] })

/-- A file-system side effect performed directly by `Main.main`:
`open(name, 'w')` (create/truncate), `po.save(name)`, `os.remove(name)`. -/
inductive FsEvent where
  | openWrite (name : String)
  | save (name : String)
  | remove (name : String)
  deriving Repr, DecidableEq

/-- The observable outcome of a run of `Main.main`: the `sys.exit`
message when the run aborted (`none` on success), the file events in
order, the content written to the org file and the catalog built, and
the stderr lines produced while filtering the external tool's output. -/
structure RunOutcome where
  exitMsg : Option String
  events : List FsEvent
  orgWritten : Option String
  catalog : Option (List POEntry)
  errLines : List String
  deriving Repr, DecidableEq

/-- Whether a given file exists after replaying a list of events over an
initial existence flag. -/
def fileExistsAfter (target : String) (pre : Bool) : List FsEvent → Bool
  | [] => pre
  | FsEvent.openWrite n :: es => fileExistsAfter target (if n = target then true else pre) es
  | FsEvent.save n :: es => fileExistsAfter target (if n = target then true else pre) es
  | FsEvent.remove n :: es => fileExistsAfter target (if n = target then false else pre) es

/-- Decode one raw output line: `raw.decode('UTF-8')` with
`raw.decode('ISO-8859-1')` on `UnicodeDecodeError`.  Strict UTF-8
decoding of a byte sequence. -/
def contOk (b : Nat) : Bool := 0x80 ≤ b && b < 0xC0

/-- Strict UTF-8 decoding of a byte list: `none` on any malformed,
overlong, surrogate or out-of-range sequence, as Python's strict
`bytes.decode('UTF-8')`. -/
def utf8Decode : List Nat → Option (List Char)
  | [] => some []
  | b :: rest =>
    if b < 0x80 then (utf8Decode rest).map (fun cs => Char.ofNat b :: cs)
    else if b < 0xC2 then none
    else if b < 0xE0 then
      match rest with
      | b1 :: rest2 =>
        if contOk b1 then
          (utf8Decode rest2).map (fun cs => Char.ofNat ((b - 0xC0) * 64 + (b1 - 0x80)) :: cs)
        else none
      | [] => none
    else if b < 0xF0 then
      match rest with
      | b1 :: b2 :: rest3 =>
        if contOk b1 && contOk b2 then
          let cp := (b - 0xE0) * 4096 + (b1 - 0x80) * 64 + (b2 - 0x80)
          if cp < 0x800 then none
          else if 0xD800 ≤ cp && cp < 0xE000 then none
          else (utf8Decode rest3).map (fun cs => Char.ofNat cp :: cs)
        else none
      | _ => none
    else if b < 0xF5 then
      match rest with
      | b1 :: b2 :: b3 :: rest4 =>
        if contOk b1 && contOk b2 && contOk b3 then
          let cp := (b - 0xF0) * 262144 + (b1 - 0x80) * 4096 + (b2 - 0x80) * 64 + (b3 - 0x80)
          if cp < 0x10000 || 0x10FFFF < cp then none
          else (utf8Decode rest4).map (fun cs => Char.ofNat cp :: cs)
        else none
      | _ => none
    else none

/-- Latin-1 (ISO-8859-1) decoding: each byte becomes the character with
the same code point; never fails. -/
def latin1Decode (raw : List Nat) : List Char := raw.map Char.ofNat

/-- `raw.decode(encoding)` guarded by `except UnicodeDecodeError`:
UTF-8 first, Latin-1 on failure. -/
def decodeLine (raw : List Nat) : String :=
  match utf8Decode raw with
  | some cs => String.mk cs
  | none => String.mk (latin1Decode raw)

/-- The fixed noisy-prefix tuple passed to `line.startswith(...)` in
`Main.launch_emacs`. -/
def noisyList : List String :=
  ["Loading ", "OVERVIEW", "Saving file ", "Wrote ",
   "Exporting to ", "LaTeX export done, ", "Processing LaTeX file ",
   "(No changes need to be saved)", "(Shell command succeeded ",
   "Exporting...", "HTML export done, ", "Publishing file ",
   "Resetting org-publish-cache", "Skipping unmodified file "]

/-- `line.startswith(tuple)`: some member of the noisy-prefix set is a
prefix of the line. -/
def isNoisy (line : String) : Bool :=
  noisyList.any (fun p => pyStartsWith p line)

/-- Split a character list at its last `'/'`: `some (a, s)` when the
list is `a ++ '/' :: s` and `s` contains no `'/'`; `none` when there is
no `'/'` at all. -/
def lastSlashSplit : List Char → Option (List Char × List Char)
  | [] => none
  | c :: rest =>
    match lastSlashSplit rest with
    | some (a, s) => some (c :: a, s)
    | none => if c = '/' then some ([], rest) else none

/-- `isSuffixChars pat s` decides whether `pat` is a suffix of `s`. -/
def isSuffixChars (pat s : List Char) : Bool := isPrefixChars pat.reverse s.reverse

/-- Match the tail of the cache regular expression,
`([^/]+)\.cache\.\.\.$`, against the part of the line after its last
slash, returning the greedy capture group: the segment must be a
non-empty name followed by `.cache...`, ending the string or followed
only by a final newline (Python's `$`). -/
def cacheTail (s : List Char) : Option (List Char) :=
  if isSuffixChars ".cache...".data s then
    let b := s.take (s.length - 9)
    if b.isEmpty then none else some b
  else if isSuffixChars ".cache...\n".data s then
    let b := s.take (s.length - 10)
    if b.isEmpty then none else some b
  else none

/-- `re.match('^Loading .*/([^/]+)\\.cache\\.\\.\\.$', line)`: the line
starts with `Loading `, the (greedy, newline-free) `.*` runs up to the
last slash, and the rest matches `([^/]+)\.cache\.\.\.$`; returns
`group(1)`. -/
def cacheMatch (line : List Char) : Option (List Char) :=
  if isPrefixChars "Loading ".data line then
    match lastSlashSplit (line.drop 8) with
    | some (a, s) => if a.contains '\n' then none else cacheTail s
    | none => none
  else none

/-- The body of the output loop of `Main.launch_emacs` on one decoded
line: the list of strings written to stderr for that line. -/
def processLine (verbose : Bool) (line : String) : List String :=
  if !verbose then
    match cacheMatch line.data with
    | some name => [String.mk name ++ "\n"]
    | none => if isNoisy line then [] else [line]
  else [line]

/-- `Main.launch_emacs(format)`: iterate over the subprocess's combined
stdout/stderr lines, decode each, filter, and write to stderr.  The
subprocess's exit status is an argument because the process has one, but
the code never reads it. -/
def launch_emacs (verbose : Bool) (rawLines : List (List Nat)) (exitStatus : Nat) : List String :=
  rawLines.flatMap (fun raw => processLine verbose (decodeLine raw))

/-- `Main.main`: option validation, sink setup, extraction over all
inputs, catalog save, the two optional external-tool invocations, and
removal of the intermediate org file.  `pfxOpt` is the `-c` value
(`none` when the option is absent), `orgPreexists` whether
`PREFIX.org` exists before the run, `inputs` the (name, token stream)
pairs of the source files, `emacsOut`/`emacsStatus` the external tool's
output lines and exit status for each requested format. -/
def pyMain (pfxOpt : Option String) (html org pdf pot verbose : Bool)
    (orgPreexists : Bool) (inputs : List (String × List Token))
    (emacsOut : String → List (List Nat)) (emacsStatus : String → Nat) : RunOutcome :=
  let bad := match pfxOpt with
    | none => true
    | some p => p.isEmpty
  if bad then
    { exitMsg := some "Option -c is mandatory.", events := [],
      orgWritten := none, catalog := none, errLines := [] }
  else
    let p := pfxOpt.getD ""
    if (html || pdf) && !org && orgPreexists then
      { exitMsg := some ("File " ++ p ++ ".org exists and -o not specified."),
        events := [], orgWritten := none, catalog := none, errLines := [] }
    else
      let ev1 := if html || org || pdf then [FsEvent.openWrite (p ++ ".org")] else []
      let st0 : SinkState :=
        { orgContent := if html || org || pdf then some "" else none,
          po := if pot then some [] else none }
      let stF := inputs.foldl (fun st inp => extract_strings st inp.2 inp.1) st0
      let ev2 := if pot then [FsEvent.save (p ++ ".pot")] else []
      let err1 := if html then launch_emacs verbose (emacsOut "html") (emacsStatus "html") else []
      let err2 := if pdf then launch_emacs verbose (emacsOut "pdf") (emacsStatus "pdf") else []
      let ev3 := if (html || pdf) && !org then [FsEvent.remove (p ++ ".org")] else []
      { exitMsg := none, events := ev1 ++ ev2 ++ ev3,
        orgWritten := stF.orgContent, catalog := stF.po, errLines := err1 ++ err2 }

/-- Concatenation of a list of strings with no separators. -/
def concatTexts : List String → String
  | [] => ""
  | s :: rest => s ++ concatTexts rest

/-- A single token either qualifies (STRING token, text starting with
`"""`) and appends to both sinks, or leaves the sink state unchanged. -/
theorem processToken_eq (name : String) (st : SinkState) (tk : Token) :
    processToken name st tk =
      if tk.code == tokSTRING && pyStartsWith tripleQuote tk.text then
        { orgContent := st.orgContent.map (fun c => c ++ docText tk.text),
          po := st.po.map (fun es =>
            es ++ [{ msgid := docText tk.text,
                     occurrences := [(name, toString tk.line)] }]) }
      else st := by
  by_cases h1 : tk.code = tokSTRING
  · by_cases h2 : pyStartsWith tripleQuote tk.text = true
    · simp [processToken, h1, h2]
    · simp [processToken, h1, h2]
  · simp [processToken, h1]

/-- `extract_strings` appends, to each open sink, exactly one
contribution per qualifying token, in token order. -/
theorem extract_strings_spec (toks : List Token) :
    ∀ (st : SinkState) (name : String),
    extract_strings st toks name =
      { orgContent := st.orgContent.map (fun c => c ++ concatTexts (docTexts toks)),
        po := st.po.map (fun es => es ++ docEntries name toks) } := by
  induction toks with
  | nil =>
    intro st name
    cases st with
    | mk oc po =>
      simp [extract_strings, docTexts, docTokens, docEntries, concatTexts,
            String.append_empty]
  | cons tk rest ih =>
    intro st name
    have hstep : extract_strings st (tk :: rest) name
        = extract_strings (processToken name st tk) rest name := rfl
    rw [hstep, ih, processToken_eq]
    by_cases hq : (tk.code == tokSTRING && pyStartsWith tripleQuote tk.text) = true
    · simp only [hq, if_true]
      cases st with
      | mk oc po =>
        simp only [docTexts, docTokens, docEntries, List.filter_cons, hq, if_true,
                   List.map_cons, concatTexts, Option.map_map, SinkState.mk.injEq]
        constructor
        · exact congrArg (fun f => Option.map f oc)
            (funext fun c => by rw [Function.comp_apply, String.append_assoc])
        · exact congrArg (fun f => Option.map f po)
            (funext fun es => by rw [Function.comp_apply, List.append_assoc]; rfl)
    · simp only [hq, if_false]
      cases st with
      | mk oc po =>
        simp [docTexts, docTokens, docEntries, List.filter_cons, hq, concatTexts]

/-- Claim C1: for every input token stream, the extractor yields a
documentation unit exactly for each string-literal token whose literal
text begins with three double-quote characters, the unit's text being
the literal text with the three leading and three trailing quote
characters stripped and every backslash-newline pair deleted
(`docText`); every other token contributes nothing to either sink. -/
theorem claim_C1_extractor_units (st : SinkState) (name : String) (toks : List Token) :
    (extract_strings st toks name).orgContent
        = st.orgContent.map (fun c => c ++ concatTexts ((toks.filter (fun tk =>
            tk.code == tokSTRING && pyStartsWith tripleQuote tk.text)).map
              (fun tk => docText tk.text))) ∧
    (extract_strings st toks name).po
        = st.po.map (fun es => es ++ (toks.filter (fun tk =>
            tk.code == tokSTRING && pyStartsWith tripleQuote tk.text)).map
              (fun tk => { msgid := docText tk.text,
                           occurrences := [(name, toString tk.line)] })) := by
  rw [extract_strings_spec]
  exact ⟨rfl, rfl⟩

/-- The token stream of a source file containing exactly the
single-quoted triple-quoted literal `'''x\<newline>y'''` (token codes:
STRING = 3, NEWLINE = 4, ENDMARKER = 0). -/
def c2Tokens : List Token :=
  [{ code := tokSTRING, text := "'''x\\\ny'''", line := 1, col := 0 },
   { code := 4, text := "\n", line := 2, col := 7 },
   { code := 0, text := "", line := 3, col := 0 }]

/-- The token stream of a source file containing exactly the raw literal
`r"""z"""`. -/
def rawTokens : List Token :=
  [{ code := tokSTRING, text := "r\"\"\"z\"\"\"", line := 1, col := 0 },
   { code := 4, text := "\n", line := 1, col := 8 },
   { code := 0, text := "", line := 2, col := 0 }]

/-- Claim C2 is false on the code: extracting from a file containing the
single-quoted literal `'''x\<newline>y'''` does not yield a unit with
text `xy` — the extractor only matches literals that begin with three
DOUBLE quotes, so nothing is written to the outline sink at all. -/
theorem claim_C2_counterexample :
    ¬ ((extract_strings { orgContent := some "", po := some [] } c2Tokens "f.py").orgContent
        = some "xy") := by decide

/-- Claim C2 (amended): extracting from a source file containing
`'''x\<newline>y'''` yields no documentation unit (only double-quote
delimited literals qualify), and extracting from `r"""z"""` also yields
no unit (the prefixed text does not begin with `"""`). -/
theorem claim_C2_amended :
    (extract_strings { orgContent := some "", po := some [] } c2Tokens "f.py")
        = { orgContent := some "", po := some [] } ∧
    (extract_strings { orgContent := some "", po := some [] } rawTokens "g.py")
        = { orgContent := some "", po := some [] } := by decide

/-- Concatenation distributes over list append. -/
theorem concatTexts_append (a b : List String) :
    concatTexts (a ++ b) = concatTexts a ++ concatTexts b := by
  induction a with
  | nil => simp [concatTexts, String.empty_append]
  | cons s rest ih => simp [concatTexts, ih, String.append_assoc]

/-- The msgids of the PO entries of one file are exactly its extracted
texts. -/
theorem docEntries_msgid (name : String) (toks : List Token) :
    (docEntries name toks).map POEntry.msgid = docTexts toks := by
  simp [docEntries, docTexts, List.map_map, Function.comp]

/-- The extraction pass over all input files appends each file's
contribution to each open sink, in file order. -/
theorem foldl_extract_spec (inputs : List (String × List Token)) :
    ∀ st : SinkState,
    inputs.foldl (fun st inp => extract_strings st inp.2 inp.1) st
      = { orgContent := st.orgContent.map (fun c =>
            c ++ concatTexts (inputs.flatMap (fun inp => docTexts inp.2))),
          po := st.po.map (fun es =>
            es ++ inputs.flatMap (fun inp => docEntries inp.1 inp.2)) } := by
  induction inputs with
  | nil =>
    intro st
    cases st with
    | mk oc po => simp [concatTexts, String.append_empty]
  | cons inp rest ih =>
    intro st
    have hstep : (inp :: rest).foldl (fun st inp => extract_strings st inp.2 inp.1) st
        = rest.foldl (fun st inp => extract_strings st inp.2 inp.1)
            (extract_strings st inp.2 inp.1) := rfl
    rw [hstep, extract_strings_spec, ih]
    cases st with
    | mk oc po =>
      simp only [List.flatMap_cons, Option.map_map, SinkState.mk.injEq,
                 concatTexts_append]
      constructor
      · exact congrArg (fun f => Option.map f oc)
          (funext fun c => by rw [Function.comp_apply, String.append_assoc])
      · exact congrArg (fun f => Option.map f po)
          (funext fun es => by rw [Function.comp_apply, List.append_assoc])

/-- Closed form of a successful run of `Main.main`: with a non-empty
prefix and the precondition on a pre-existing org file satisfied, the
run exits normally, performs exactly the open/save/remove events its
flags dictate, and fills each requested sink with the extraction of all
inputs in order. -/
theorem pyMain_success_eq (px : String) (html org pdf pot vb pre : Bool)
    (inputs : List (String × List Token))
    (eo : String → List (List Nat)) (es : String → Nat)
    (hpx : px.isEmpty = false) (hguard : ((html || pdf) && !org && pre) = false) :
    pyMain (some px) html org pdf pot vb pre inputs eo es =
      { exitMsg := none,
        events := (if html || org || pdf then [FsEvent.openWrite (px ++ ".org")] else [])
            ++ (if pot then [FsEvent.save (px ++ ".pot")] else [])
            ++ (if (html || pdf) && !org then [FsEvent.remove (px ++ ".org")] else []),
        orgWritten := if html || org || pdf then
            some (concatTexts (inputs.flatMap (fun inp => docTexts inp.2))) else none,
        catalog := if pot then
            some (inputs.flatMap (fun inp => docEntries inp.1 inp.2)) else none,
        errLines := (if html then launch_emacs vb (eo "html") (es "html") else [])
            ++ (if pdf then launch_emacs vb (eo "pdf") (es "pdf") else []) } := by
  rw [pyMain]
  simp only [hpx, hguard, Option.getD_some, Bool.false_eq_true, if_false,
             foldl_extract_spec]
  cases hho : (html || org || pdf) <;> cases ht : pot <;>
    simp [String.empty_append]

/-- Claim C3: when outline output is enabled, at end of the extraction
pass the outline file's content equals the concatenation of the
extracted texts of all qualifying literals, in source order (file order,
then token order within each file), with no separator inserted. -/
theorem claim_C3_outline_concat (px : String) (html org pdf pot vb pre : Bool)
    (inputs : List (String × List Token))
    (eo : String → List (List Nat)) (es : String → Nat)
    (hpx : px.isEmpty = false) (hguard : ((html || pdf) && !org && pre) = false)
    (ho : (html || org || pdf) = true) :
    (pyMain (some px) html org pdf pot vb pre inputs eo es).orgWritten
      = some (concatTexts (inputs.flatMap (fun inp => docTexts inp.2))) := by
  rw [pyMain_success_eq px html org pdf pot vb pre inputs eo es hpx hguard]
  simp [ho]

/-- Witness for claim C3 at a concrete run: one input with one
qualifying literal `"""x"""`, outline requested. -/
theorem claim_C3_witness :
    (pyMain (some "doc") false true false false false false
        [("a.py", [{ code := 3, text := "\"\"\"x\"\"\"", line := 1, col := 0 }])]
        (fun _ => []) (fun _ => 0)).orgWritten = some "x" := by
  have h := claim_C3_outline_concat "doc" false true false false false false
      [("a.py", [{ code := 3, text := "\"\"\"x\"\"\"", line := 1, col := 0 }])]
      (fun _ => []) (fun _ => 0) (by decide) (by decide) (by decide)
  rw [h]
  decide

/-- Claim C4: when `-t` is enabled, every qualifying literal appends
exactly one catalog entry whose single occurrence is (source name,
starting line rendered in decimal); in particular two literals at lines
L1 and L2 in two inputs produce exactly two such entries. -/
theorem claim_C4_catalog_entries (px : String) (html org pdf vb pre : Bool)
    (inputs : List (String × List Token))
    (eo : String → List (List Nat)) (es : String → Nat)
    (hpx : px.isEmpty = false) (hguard : ((html || pdf) && !org && pre) = false) :
    ((pyMain (some px) html org pdf true vb pre inputs eo es).catalog
        = some (inputs.flatMap (fun inp => docEntries inp.1 inp.2))) ∧
    (∀ (n1 n2 : String) (L1 L2 : Nat) (s1 s2 : String),
      pyStartsWith tripleQuote s1 = true → pyStartsWith tripleQuote s2 = true →
      (pyMain (some px) html org pdf true vb pre
          [(n1, [{ code := tokSTRING, text := s1, line := L1, col := 0 }]),
           (n2, [{ code := tokSTRING, text := s2, line := L2, col := 0 }])] eo es).catalog
        = some [{ msgid := docText s1, occurrences := [(n1, toString L1)] },
                { msgid := docText s2, occurrences := [(n2, toString L2)] }]) := by
  constructor
  · rw [pyMain_success_eq px html org pdf true vb pre inputs eo es hpx hguard]
    simp
  · intro n1 n2 L1 L2 s1 s2 hs1 hs2
    rw [pyMain_success_eq px html org pdf true vb pre _ eo es hpx hguard]
    simp [docEntries, docTokens, hs1, hs2, tokSTRING]

/-- Witness for claim C4: two one-literal inputs at lines 2 and 5. -/
theorem claim_C4_witness :
    (pyMain (some "doc") false false false true false false
        [("a.py", [{ code := tokSTRING, text := "\"\"\"x\"\"\"", line := 2, col := 0 }]),
         ("b.py", [{ code := tokSTRING, text := "\"\"\"y\"\"\"", line := 5, col := 0 }])]
        (fun _ => []) (fun _ => 0)).catalog
      = some [{ msgid := "x", occurrences := [("a.py", "2")] },
              { msgid := "y", occurrences := [("b.py", "5")] }] := by
  have h := (claim_C4_catalog_entries "doc" false false false false false
      [] (fun _ => []) (fun _ => 0) (by decide) (by decide)).2
      "a.py" "b.py" 2 5 "\"\"\"x\"\"\"" "\"\"\"y\"\"\"" (by decide) (by decide)
  rw [h]
  decide

/-- Claim C5: if `-c` is absent or its value is empty, the run fails
with the usage error before performing any file I/O: no events, no
outputs. -/
theorem claim_C5_prefix_mandatory (pfxOpt : Option String)
    (html org pdf pot vb pre : Bool) (inputs : List (String × List Token))
    (eo : String → List (List Nat)) (es : String → Nat)
    (hp : pfxOpt = none ∨ pfxOpt = some "") :
    (pyMain pfxOpt html org pdf pot vb pre inputs eo es).exitMsg
        = some "Option -c is mandatory." ∧
    (pyMain pfxOpt html org pdf pot vb pre inputs eo es).events = [] ∧
    (pyMain pfxOpt html org pdf pot vb pre inputs eo es).orgWritten = none ∧
    (pyMain pfxOpt html org pdf pot vb pre inputs eo es).catalog = none := by
  have he : ("" : String).isEmpty = true := rfl
  rcases hp with hp | hp <;> subst hp <;> simp [pyMain, he]

/-- Witness for claim C5 at a concrete run with `-c` absent. -/
theorem claim_C5_witness :
    (pyMain none true true true true true true [] (fun _ => []) (fun _ => 0)).exitMsg
        = some "Option -c is mandatory." ∧
    (pyMain none true true true true true true [] (fun _ => []) (fun _ => 0)).events = [] := by
  have h := claim_C5_prefix_mandatory none true true true true true true []
      (fun _ => []) (fun _ => 0) (Or.inl rfl)
  exact ⟨h.1, h.2.1⟩

/-- Claim C6: `-h` or `-p` without `-o` while `PREFIX.org` pre-exists
fails immediately with a message to the error stream and performs no
file events at all. -/
theorem claim_C6_org_preexists (px : String) (html pdf pot vb : Bool)
    (inputs : List (String × List Token))
    (eo : String → List (List Nat)) (es : String → Nat)
    (hpx : px.isEmpty = false) (hhp : (html || pdf) = true) :
    (pyMain (some px) html false pdf pot vb true inputs eo es).exitMsg
        = some ("File " ++ px ++ ".org exists and -o not specified.") ∧
    (pyMain (some px) html false pdf pot vb true inputs eo es).events = [] ∧
    (pyMain (some px) html false pdf pot vb true inputs eo es).orgWritten = none ∧
    (pyMain (some px) html false pdf pot vb true inputs eo es).catalog = none := by
  rw [pyMain]
  simp [hpx, hhp]

/-- Witness for claim C6: `-h` only, `PREFIX.org` pre-existing. -/
theorem claim_C6_witness :
    (pyMain (some "doc") true false false false false true [] (fun _ => []) (fun _ => 0)).exitMsg
        = some "File doc.org exists and -o not specified." ∧
    (pyMain (some "doc") true false false false false true [] (fun _ => []) (fun _ => 0)).events
        = [] := by
  have h := claim_C6_org_preexists "doc" true false false false []
      (fun _ => []) (fun _ => 0) (by decide) (by decide)
  exact ⟨by rw [h.1]; decide, h.2.1⟩

/-- Appending different suffixes to the same prefix gives different
file names. -/
theorem pot_ne_org (px : String) : ¬(px ++ ".pot" = px ++ ".org") := by
  intro hcontra
  have h2 : (px ++ ".pot").data = (px ++ ".org").data := congrArg String.data hcontra
  rw [String.data_append, String.data_append] at h2
  exact absurd (List.append_cancel_left h2) (by decide)

/-- Claim C7: `PREFIX.org` is created (opened for write) iff one of
`-o`, `-h`, `-p` is requested, and removed at the end of a successful
run iff it was only an intermediate (`-h` or `-p` without `-o`); hence
after the run the file exists iff `-o` was given, or it pre-existed and
no variant of the outline was requested at all. -/
theorem claim_C7_org_lifecycle (px : String) (html org pdf pot vb pre : Bool)
    (inputs : List (String × List Token))
    (eo : String → List (List Nat)) (es : String → Nat)
    (hpx : px.isEmpty = false) (hguard : ((html || pdf) && !org && pre) = false) :
    ((FsEvent.openWrite (px ++ ".org")
        ∈ (pyMain (some px) html org pdf pot vb pre inputs eo es).events)
      ↔ (html || org || pdf) = true) ∧
    ((FsEvent.remove (px ++ ".org")
        ∈ (pyMain (some px) html org pdf pot vb pre inputs eo es).events)
      ↔ ((html || pdf) && !org) = true) ∧
    (fileExistsAfter (px ++ ".org") pre
        (pyMain (some px) html org pdf pot vb pre inputs eo es).events
      = (org || (!(html || org || pdf) && pre))) := by
  rw [pyMain_success_eq px html org pdf pot vb pre inputs eo es hpx hguard]
  have hne := pot_ne_org px
  cases html <;> cases org <;> cases pdf <;> cases pot <;>
    simp_all [fileExistsAfter]

/-- Witness for claim C7: a run with `-h` only (no `-o`): the org file
is opened, removed again, and absent afterwards. -/
theorem claim_C7_witness :
    (FsEvent.openWrite "doc.org"
        ∈ (pyMain (some "doc") true false false false false false [] (fun _ => [])
            (fun _ => 0)).events) ∧
    (FsEvent.remove "doc.org"
        ∈ (pyMain (some "doc") true false false false false false [] (fun _ => [])
            (fun _ => 0)).events) ∧
    (fileExistsAfter "doc.org" false
        (pyMain (some "doc") true false false false false false [] (fun _ => [])
          (fun _ => 0)).events = false) := by
  have h := claim_C7_org_lifecycle "doc" true false false false false false []
      (fun _ => []) (fun _ => 0) (by decide) (by decide)
  refine ⟨?_, ?_, ?_⟩
  · exact h.1.mpr (by decide)
  · exact h.2.1.mpr (by decide)
  · rw [show ("doc.org" : String) = "doc" ++ ".org" by decide] at *
    rw [h.2.2]
    decide

/-- Claim C9: the external formatter invocation never inspects the
subprocess's exit status: for every two statuses the forwarded output
and the whole run outcome coincide, and a run that reaches the
invocation still exits successfully. -/
theorem claim_C9_status_ignored (v : Bool) (lines : List (List Nat)) (s1 s2 : Nat)
    (pfxOpt : Option String) (html org pdf pot vb pre : Bool)
    (inputs : List (String × List Token)) (eo : String → List (List Nat))
    (es1 es2 : String → Nat) (px : String)
    (hpx : px.isEmpty = false) (hguard : ((html || pdf) && !org && pre) = false) :
    launch_emacs v lines s1 = launch_emacs v lines s2 ∧
    pyMain pfxOpt html org pdf pot vb pre inputs eo es1
      = pyMain pfxOpt html org pdf pot vb pre inputs eo es2 ∧
    (pyMain (some px) html org pdf pot vb pre inputs eo es1).exitMsg = none := by
  refine ⟨rfl, rfl, ?_⟩
  rw [pyMain_success_eq px html org pdf pot vb pre inputs eo es1 hpx hguard]

/-- Witness for claim C9: two different exit statuses of the external
tool give byte-identical forwarded output and run outcome. -/
theorem claim_C9_witness :
    launch_emacs false [[65, 10]] 0 = launch_emacs false [[65, 10]] 1 ∧
    (pyMain (some "doc") true false false false false false [] (fun _ => [[65, 10]])
        (fun _ => 0)).exitMsg = none := by
  have h := claim_C9_status_ignored false [[65, 10]] 0 1 (some "doc")
      true false false false false false [] (fun _ => [[65, 10]])
      (fun _ => 0) (fun _ => 1) "doc" (by decide) (by decide)
  exact ⟨h.1, h.2.2⟩

/-- Claim C10: when both the outline sink and the translation sink are
enabled, the catalog's sequence of message texts equals the sequence of
extracted text blocks, unit for unit, and the outline file's content is
the concatenation of the catalog entries' message texts in order. -/
theorem claim_C10_sinks_agree (px : String) (html org pdf vb pre : Bool)
    (inputs : List (String × List Token))
    (eo : String → List (List Nat)) (es : String → Nat)
    (hpx : px.isEmpty = false) (hguard : ((html || pdf) && !org && pre) = false)
    (ho : (html || org || pdf) = true) :
    ((pyMain (some px) html org pdf true vb pre inputs eo es).catalog).map
        (fun entries => entries.map POEntry.msgid)
      = some (inputs.flatMap (fun inp => docTexts inp.2)) ∧
    (pyMain (some px) html org pdf true vb pre inputs eo es).orgWritten
      = some (concatTexts (inputs.flatMap (fun inp => docTexts inp.2))) := by
  rw [pyMain_success_eq px html org pdf true vb pre inputs eo es hpx hguard]
  constructor
  · simp [List.map_flatMap, docEntries_msgid]
  · simp [ho]

/-- Witness for claim C10 at a concrete run with `-o -t` and two
qualifying literals. -/
theorem claim_C10_witness :
    ((pyMain (some "doc") false true false true false false
        [("a.py", [{ code := 3, text := "\"\"\"x\"\"\"", line := 1, col := 0 },
                   { code := 3, text := "\"\"\"y\"\"\"", line := 3, col := 0 }])]
        (fun _ => []) (fun _ => 0)).catalog).map
        (fun entries => entries.map POEntry.msgid) = some ["x", "y"] ∧
    (pyMain (some "doc") false true false true false false
        [("a.py", [{ code := 3, text := "\"\"\"x\"\"\"", line := 1, col := 0 },
                   { code := 3, text := "\"\"\"y\"\"\"", line := 3, col := 0 }])]
        (fun _ => []) (fun _ => 0)).orgWritten = some "xy" := by
  have h := claim_C10_sinks_agree "doc" false true false false false
      [("a.py", [{ code := 3, text := "\"\"\"x\"\"\"", line := 1, col := 0 },
                 { code := 3, text := "\"\"\"y\"\"\"", line := 3, col := 0 }])]
      (fun _ => []) (fun _ => 0) (by decide) (by decide) (by decide)
  refine ⟨?_, ?_⟩
  · rw [h.1]; decide
  · rw [h.2]; decide

/-- Claim C8: every output line of the external tool is decoded as
UTF-8 with a Latin-1 fallback on decode failure; in verbose mode every
decoded line is forwarded unmodified; in non-verbose mode a line
matching the cache-loading pattern is replaced by a one-line note
holding only the captured name, a line starting with one of the fixed
noisy prefixes is suppressed, and every other line is forwarded
verbatim; and the whole invocation is exactly this per-line filter. -/
theorem claim_C8_line_filter (raw : List Nat) :
    (∀ cs, utf8Decode raw = some cs → decodeLine raw = String.mk cs) ∧
    (utf8Decode raw = none → decodeLine raw = String.mk (latin1Decode raw)) ∧
    (processLine true (decodeLine raw) = [decodeLine raw]) ∧
    (∀ nm, cacheMatch (decodeLine raw).data = some nm →
        processLine false (decodeLine raw) = [String.mk nm ++ "\n"]) ∧
    (cacheMatch (decodeLine raw).data = none → isNoisy (decodeLine raw) = true →
        processLine false (decodeLine raw) = []) ∧
    (cacheMatch (decodeLine raw).data = none → isNoisy (decodeLine raw) = false →
        processLine false (decodeLine raw) = [decodeLine raw]) ∧
    (∀ (v : Bool) (rawLines : List (List Nat)) (s : Nat),
        launch_emacs v rawLines s
          = rawLines.flatMap (fun r => processLine v (decodeLine r))) := by
  refine ⟨?_, ?_, ?_, ?_, ?_, ?_, fun v rl s => rfl⟩
  · intro cs hcs
    simp [decodeLine, hcs]
  · intro hn
    simp [decodeLine, hn]
  · simp [processLine]
  · intro nm hnm
    simp [processLine, hnm]
  · intro hn hz
    simp [processLine, hn, hz]
  · intro hn hz
    simp [processLine, hn, hz]

/-- The UTF-8 byte sequence of the line `Loading /a/b.cache...\n`. -/
def c8CacheBytes : List Nat := "Loading /a/b.cache...\n".data.map Char.toNat

/-- Witness for claim C8: a concrete cache-loading line is replaced by
the one-line note, a concrete noisy line is suppressed, an ordinary
diagnostic line passes verbatim, and an invalid UTF-8 byte falls back
to Latin-1. -/
theorem claim_C8_witness :
    processLine false (decodeLine c8CacheBytes) = ["b\n"] ∧
    processLine false (decodeLine ("Wrote foo\n".data.map Char.toNat)) = [] ∧
    processLine false (decodeLine ("boom: error\n".data.map Char.toNat))
        = [decodeLine ("boom: error\n".data.map Char.toNat)] ∧
    decodeLine [0xFF] = String.mk [Char.ofNat 0xFF] := by
  refine ⟨?_, ?_, ?_, ?_⟩
  · have h := (claim_C8_line_filter c8CacheBytes).2.2.2.1 "b".data (by decide)
    rw [h]
    decide
  · exact (claim_C8_line_filter ("Wrote foo\n".data.map Char.toNat)).2.2.2.2.1
      (by decide) (by decide)
  · exact (claim_C8_line_filter ("boom: error\n".data.map Char.toNat)).2.2.2.2.2.1
      (by decide) (by decide)
  · exact (claim_C8_line_filter [0xFF]).2.1 (by decide)
